import Mathlib

/-!
Verification development for the SearchValidationPage page object of the
automated search testing suite.  The browser page driven by Playwright is
abstracted into explicit environment records; each method of the page object
is translated into a Lean function over such an environment, with thrown
JavaScript errors modelled by `Except`.
-/

namespace SearchValidation



/-- Lowercasing of a JavaScript string (String.prototype.toLowerCase),
character by character. -/
def jsToLower (s : String) : String := ⟨s.data.map Char.toLower⟩

/-- Containment test of a JavaScript string (String.prototype.includes):
the needle occurs as a contiguous substring of the haystack. -/
def jsIncludes (hay needle : String) : Bool := decide (needle.data <:+: hay.data)

/-- A thrown JavaScript error value: the constructor name together with the
message.  Every throw site of SearchValidationPage.js builds a plain
`new Error(...)`, whose constructor name is "Error". -/
structure JsError where
  name : String
  message : String
deriving DecidableEq

/-- Mirror of the validationResults object built by validateSearchResults.
keywordMatches is the JavaScript object literal: an insertion-ordered
string-keyed map. -/
structure ValidationResult where
  totalResults : Nat
  keywordMatches : List (String × Bool)
  isValid : Bool
deriving DecidableEq

/-- Assignment obj[k] = v on a JavaScript object modelled as an
insertion-ordered association list: an existing key keeps its position and
receives the new value, a fresh key is appended at the end. -/
def objSet (m : List (String × Bool)) (k : String) (v : Bool) : List (String × Bool) :=
  if m.any (fun p => p.1 == k) then
    m.map (fun p => if p.1 == k then (p.1, v) else p)
  else m ++ [(k, v)]

/-- The keywordMatches object after the for-of loop of validateSearchResults:
for each expected keyword in order, record whether its lowercased form occurs
in the lowercased page content. -/
def keywordMatchesOf (contentLower : String) (expectedKeywords : List String) :
    List (String × Bool) :=
  expectedKeywords.foldl
    (fun m keyword => objSet m keyword (jsIncludes contentLower (jsToLower keyword))) []

/-- Count of recorded matches:
Object.values(keywordMatches).filter(match => match === true).length. -/
def countTrue (m : List (String × Bool)) : Nat :=
  (m.filter (fun p => p.2 == true)).length

/-- validateSearchResults of SearchValidationPage.js.  The page is abstracted
to the number of elements matching the resultHeaders locator
(resultHeaderCount) and the text content of the body (pageText).  The expect
call throws when totalResults < minResultCount; the catch block rethrows every
inner failure wrapped in a plain Error prefixed with "Result validation
failed: ", so no result object escapes in that case.  Math.ceil(n / 2) on a
natural n is (n + 1) / 2. -/
def validateSearchResults (resultHeaderCount : Nat) (pageText : String)
    (expectedKeywords : List String) (minResultCount : Nat) :
    Except JsError ValidationResult :=
  if resultHeaderCount < minResultCount then
    .error ⟨"Error",
      "Result validation failed: expect received to be greater than or equal to expected"⟩
  else
    .ok { totalResults := resultHeaderCount
        , keywordMatches := keywordMatchesOf (jsToLower pageText) expectedKeywords
        , isValid := decide ((expectedKeywords.length + 1) / 2 ≤
            countTrue (keywordMatchesOf (jsToLower pageText) expectedKeywords)) }

/-- Check whether an Except value carries a success result. -/
def succeeded {ε α : Type} (r : Except ε α) : Bool :=
  match r with
  | .ok _ => true
  | .error _ => false

/-- Entry of the extracted result list: position, trimmed title text and
trimmed description text. -/
structure ResultEntry where
  position : Nat
  title : String
  description : String
deriving DecidableEq

/-- Outcome of one textContent() call: a thrown error, or the returned value,
where a null return is none. -/
abbrev TextRead := Except String (Option String)

/-- Environment for extractResultData: the outcomes of the two locator .all()
calls; each listed element carries the outcome of its own textContent()
call. -/
structure ExtractEnv where
  titlesAll : Except String (List TextRead)
  descsAll : Except String (List TextRead)

/-- JavaScript `value || ''` applied to a textContent result: a null value
becomes the empty string. -/
def jsOrEmpty (t : Option String) : String :=
  match t with
  | some s => s
  | none => ""

/-- Loop of extractResultData over the remaining loop indices.  The resultData
array is the accumulator; a thrown read error aborts the loop carrying the
entries accumulated so far, because that array survives into the catch
handler. -/
def extractLoop (titles descs : List TextRead) :
    List Nat → List ResultEntry →
      Except (String × List ResultEntry) (List ResultEntry)
  | [], acc => .ok acc
  | i :: rest, acc =>
    match titles.getD i (.error "missing element") with
    | .error e => .error (e, acc)
    | .ok t =>
      match (if i < descs.length then descs.getD i (.error "missing element")
             else .ok none) with
      | .error e => .error (e, acc)
      | .ok d =>
        extractLoop titles descs rest
          (acc ++ [⟨i + 1, (jsOrEmpty t).trim, (jsOrEmpty d).trim⟩])

/-- Body of the try block of extractResultData: the two .all() calls followed
by the pairing loop over the indices 0 .. min(titles.length, 10) - 1. -/
def extractInner (env : ExtractEnv) :
    Except (String × List ResultEntry) (List ResultEntry) :=
  match env.titlesAll with
  | .error e => .error (e, [])
  | .ok titles =>
    match env.descsAll with
    | .error e => .error (e, [])
    | .ok descs => extractLoop titles descs (List.range (min titles.length 10)) []

/-- extractResultData of SearchValidationPage.js: the catch handler logs a
warning and returns the resultData accumulated so far instead of rethrowing. -/
def extractResultData (env : ExtractEnv) : List ResultEntry :=
  match extractInner env with
  | .ok entries => entries
  | .error (_, acc) => acc

/-- Value carried inside a successful textContent read, none on a thrown
read. -/
def okValue (t : TextRead) : Option String :=
  match t with
  | .ok v => v
  | .error _ => none

/-- Whether both reads of loop iteration i of extractResultData succeed: the
title read always happens, the description read only when index i carries a
description element. -/
def readsOk (titles descs : List TextRead) (i : Nat) : Bool :=
  succeeded (titles.getD i (.error "missing element")) &&
    (decide (descs.length ≤ i) ||
      succeeded (descs.getD i (.error "missing element")))

/-- Entry produced at loop iteration i of extractResultData when both of its
reads succeed. -/
def entryAt (titles descs : List TextRead) (i : Nat) : ResultEntry :=
  ⟨i + 1,
   (jsOrEmpty (okValue (titles.getD i (.error "missing element")))).trim,
   (if i < descs.length then
      jsOrEmpty (okValue (descs.getD i (.error "missing element")))
    else "").trim⟩

/-- Number of loop iterations of extractResultData completed before the first
failing read. -/
def goodLen (titles descs : List TextRead) : Nat :=
  (List.range (min titles.length 10)).findIdx
    (fun i => ! readsOk titles descs i)

/-- Entries accumulated up to the point of failure: one entry per loop
iteration completed before the first failing read. -/
def entriesUpToFailure (env : ExtractEnv) : List ResultEntry :=
  match env.titlesAll with
  | .error _ => []
  | .ok titles =>
    match env.descsAll with
    | .error _ => []
    | .ok descs => (List.range (goodLen titles descs)).map (entryAt titles descs)

/-- Ordered list of consent-dismissal selector candidates of
SearchValidationPage.js. -/
def consentSelectors : List String :=
  ["button:has-text(\"Accept all\")",
   "button:has-text(\"I agree\")",
   "button:has-text(\"Accept\")",
   "[id*=\"accept\"], [class*=\"accept\"]"]

/-- Outcome of the isVisible probe of one consent candidate: the probe reports
the element visible, reports it not visible, or throws. -/
inductive ProbeOutcome
  | visibleYes
  | visibleNo
  | probeErr
deriving DecidableEq

/-- Environment for consent handling: for the candidate at each position, the
outcome of its visibility probe and whether a click on it succeeds. -/
structure ConsentEnv where
  probe : Nat → ProbeOutcome
  clickOk : Nat → Bool

/-- Observable event during consent handling: candidate i was probed for
visibility, or a click on candidate i was attempted. -/
inductive ConsentEvent
  | probed (i : Nat)
  | clicked (i : Nat)
deriving DecidableEq

/-- Body of one iteration of the consent loop (the try block): probe the
candidate, click it when visible, and report a break after a successful click.
A thrown error carries the events recorded up to the throw. -/
def tryConsentCandidate (env : ConsentEnv) (i : Nat) :
    Except (String × List ConsentEvent) (List ConsentEvent × Bool) :=
  match env.probe i with
  | .probeErr => .error ("isVisible failed", [.probed i])
  | .visibleNo => .ok ([.probed i], false)
  | .visibleYes =>
    if env.clickOk i then .ok ([.probed i, .clicked i], true)
    else .error ("click failed", [.probed i, .clicked i])

/-- Loop of the consent handler over the remaining candidate positions: a
thrown per-candidate error is caught and the next candidate tried; a
successful click breaks out of the loop. -/
def consentLoop (env : ConsentEnv) : List Nat → List ConsentEvent
  | [] => []
  | i :: rest =>
    match tryConsentCandidate env i with
    | .error (_, evs) => evs ++ consentLoop env rest
    | .ok (evs, true) => evs
    | .ok (evs, false) => evs ++ consentLoop env rest

/-- The private consent-dialog handler of SearchValidationPage.js, returning
the list of observable events.  It has no error outcome: every per-candidate
failure is caught inside the loop body, so the overall step always returns. -/
def handleConsentDialogs (env : ConsentEnv) : List ConsentEvent :=
  consentLoop env (List.range consentSelectors.length)

/-- Whether candidate i gets dismissed by the handler: its probe reports it
visible and the click on it succeeds. -/
def consentSuccess (env : ConsentEnv) (i : Nat) : Bool :=
  decide (env.probe i = .visibleYes) && env.clickOk i

/-- Events contributed by candidate i: a probe, plus a click attempt when the
probe reported the candidate visible. -/
def consentEventsAt (env : ConsentEnv) (i : Nat) : List ConsentEvent :=
  match env.probe i with
  | .visibleYes => [.probed i, .clicked i]
  | _ => [.probed i]

/-- Declared-order trace the spec describes: the events of the candidates
before the first dismissed one, followed by the events of that dismissed
candidate; all candidates when none is dismissed. -/
def consentSpecTrace (env : ConsentEnv) (idxs : List Nat) : List ConsentEvent :=
  ((idxs.takeWhile fun i => ! consentSuccess env i).map
    (consentEventsAt env)).flatten ++
  (match idxs.find? (fun i => consentSuccess env i) with
   | some i => consentEventsAt env i
   | none => [])

/-- Concrete consent environment: the probe of the first candidate throws, the
second candidate is visible and its click succeeds. -/
def consentEnvW : ConsentEnv :=
  ⟨fun i => if i = 0 then .probeErr else .visibleYes, fun _ => true⟩

/-- DOM element abstraction carrying the attributes inspected by the page
object's selectors, the visibility state, and the current input value. -/
structure Element where
  tag : String
  nameAttr : String
  ariaHidden : Bool
  visible : Bool
  value : String
deriving DecidableEq, Inhabited

/-- Page state: the current URL and the elements of the document in document
order. -/
structure PageState where
  url : String
  elems : List Element
deriving DecidableEq

/-- Selector string of the searchBox locator of the locators table. -/
def locators_searchBox : String :=
  "textarea[name=\"q\"]:not([aria-hidden=\"true\"]), input[name=\"q\"]:not([aria-hidden=\"true\"])"

/-- Selector string of the resultContainers locator of the locators table. -/
def locators_resultContainers : String := "#search, #rso, main"

/-- Configured wait timeout of the page object (this.config.waitTimeout). -/
def config_waitTimeout : Nat := 10000

/-- Interpretation of the searchBox selector list on one element: a textarea
or input named q that is not aria-hidden. -/
def matchesSearchBox (e : Element) : Bool :=
  (e.tag == "textarea" || e.tag == "input") && e.nameAttr == "q" && !e.ariaHidden

/-- Interpretation of the bare selector textarea[name="q"], from which
executeSearch builds its searchInput locator. -/
def matchesTextareaQ (e : Element) : Bool :=
  e.tag == "textarea" && e.nameAttr == "q"

/-- Whether an element matches the searchBox selector list and is visible. -/
def isVisibleSearchBox (e : Element) : Bool := matchesSearchBox e && e.visible

/-- Observable driver action issued by executeSearch, with element indices in
document order. -/
inductive Action
  | waitForSelector (sel : String) (timeout : Nat)
  | goto (url : String)
  | click (idx : Nat)
  | clear (idx : Nat)
  | fill (idx : Nat) (text : String)
  | press (idx : Nat) (key : String)
deriving DecidableEq

/-- Environment for executeSearch: the current page, the outcome of the
recovery goto to the search-engine root, and whether the result containers
appear within the result wait. -/
structure BrowserEnv where
  page : PageState
  googleHomeResult : Except String PageState
  resultsAppear : Bool

/-- Replacement of the value of the element at position idx. -/
def setValueAt (elems : List Element) (idx : Nat) (v : String) : List Element :=
  elems.set idx { elems.getD idx default with value := v }

/-- Image-mode recovery step of executeSearch: when the current URL carries
tbm=isch, navigate to the search-engine root and wait for the bare query
textarea, visible, within 5000 ms. -/
def recoverFromImageMode (env : BrowserEnv) :
    Except String (PageState × List Action) :=
  if jsIncludes env.page.url "tbm=isch" then
    match env.googleHomeResult with
    | .error msg => .error msg
    | .ok home =>
      if home.elems.any (fun e => matchesTextareaQ e && e.visible) then
        .ok (home, [Action.goto "https://www.google.com",
                    Action.waitForSelector "textarea[name=\"q\"]" 5000])
      else .error "page.waitForSelector: Timeout 5000ms exceeded"
  else .ok (env.page, [])

/-- Body of the try block of executeSearch: wait for the searchBox selector
list to have a visible match, resolve the searchInput locator as the first
element matching the bare selector textarea[name="q"], recover from an
image-mode URL, click, clear, fill and submit via Enter on that element, then
wait for the result containers with the configured timeout.  Actions on an
empty or non-actionable locator throw a timeout error. -/
def executeSearchInner (env : BrowserEnv) (searchTerm : String) :
    Except String (List Action × PageState) :=
  if env.page.elems.any isVisibleSearchBox then
    match recoverFromImageMode env with
    | .error msg => .error msg
    | .ok (page1, tr1) =>
      match page1.elems.findIdx? matchesTextareaQ with
      | none => .error "locator.click: Timeout 30000ms exceeded"
      | some idx =>
        if (page1.elems.getD idx default).visible then
          if env.resultsAppear then
            .ok (Action.waitForSelector locators_searchBox 10000 :: tr1 ++
              [Action.click idx, Action.clear idx, Action.fill idx searchTerm,
               Action.press idx "Enter",
               Action.waitForSelector locators_resultContainers
                 config_waitTimeout],
              { page1 with elems :=
                  setValueAt (setValueAt page1.elems idx "") idx searchTerm })
          else .error "page.waitForSelector: Timeout 10000ms exceeded"
        else .error "locator.click: Timeout 30000ms exceeded"
  else .error "page.waitForSelector: Timeout 10000ms exceeded"

/-- executeSearch of SearchValidationPage.js: the catch block wraps every
inner failure in a plain Error with the prefix shown. -/
def executeSearch (env : BrowserEnv) (searchTerm : String) :
    Except JsError (List Action × PageState) :=
  match executeSearchInner env searchTerm with
  | .ok r => .ok r
  | .error cause => .error ⟨"Error", "Search execution failed: " ++ cause⟩

/-- Modelled from the spec: element resolution for a locator role uses the
first alternative of the role's declared selector list that matches a visible
element; for the searchInput role the textarea alternative precedes the input
alternative, each excluding aria-hidden elements. -/
def specFirstVisibleSearchInput (elems : List Element) : Option Nat :=
  match elems.findIdx? (fun e =>
      e.tag == "textarea" && e.nameAttr == "q" && !e.ariaHidden && e.visible) with
  | some i => some i
  | none => elems.findIdx? (fun e =>
      e.tag == "input" && e.nameAttr == "q" && !e.ariaHidden && e.visible)

/-- Indices of the elements executeSearch fills, read off its outcome. -/
def filledIndices (r : Except JsError (List Action × PageState)) : List Nat :=
  match r with
  | .ok (tr, _) => tr.filterMap fun a =>
      match a with
      | .fill i _ => some i
      | _ => none
  | .error _ => []

/-- Concrete page for the C3 counterexample: a visible query input element
first, followed by an aria-hidden query textarea. -/
def envC3 : BrowserEnv :=
  { page := { url := "https://www.google.com/",
              elems := [⟨"input", "q", false, true, ""⟩,
                        ⟨"textarea", "q", true, true, ""⟩] },
    googleHomeResult := .ok ⟨"https://www.google.com/", []⟩,
    resultsAppear := true }

/-- Concrete browser environment with one visible query textarea on the root
page. -/
def browserEnvW : BrowserEnv :=
  { page := { url := "https://www.google.com/",
              elems := [⟨"textarea", "q", false, true, ""⟩] },
    googleHomeResult := .ok ⟨"https://www.google.com/", []⟩,
    resultsAppear := true }

/-- Environment for the main-surface enforcement step: the combined outcome of
its internal driver calls. -/
structure EnsureEnv where
  inner : Except String Unit

/-- The private main-surface enforcement step of SearchValidationPage.js: its
try/catch logs and absorbs every failure, so it always returns; the return
value is the log it emits. -/
def ensureMainSearchPage (env : EnsureEnv) : List String :=
  match env.inner with
  | .ok _ => []
  | .error _ => ["Note: Could not ensure main search page, continuing..."]

/-- Environment for navigateToSearchEngine: the outcome of the initial goto as
a function of the target URL, and the environments of the two best-effort
sub-steps. -/
structure NavEnv where
  gotoResult : String → Except String PageState
  consent : ConsentEnv
  ensure : EnsureEnv

/-- navigateToSearchEngine of SearchValidationPage.js: navigate, settle, run
consent handling and main-surface enforcement (neither of which can throw),
and wrap any failure in a plain Error prefixed with "Navigation failed: ". -/
def navigateToSearchEngine (env : NavEnv) (searchEngineUrl : String) :
    Except JsError PageState :=
  match env.gotoResult searchEngineUrl with
  | .error cause => .error ⟨"Error", "Navigation failed: " ++ cause⟩
  | .ok st =>
    let _ := handleConsentDialogs env.consent
    let _ := ensureMainSearchPage env.ensure
    .ok st

/-- Constructor name of the error carried by a failed outcome. -/
def errNameOf {α : Type} (r : Except JsError α) : Option String :=
  match r with
  | .error e => some e.name
  | .ok _ => none

/-- Concrete navigation environment whose initial goto throws. -/
def navEnvFail : NavEnv :=
  { gotoResult := fun _ => .error "net::ERR_CONNECTION_REFUSED",
    consent := consentEnvW,
    ensure := ⟨.ok ()⟩ }

/-- Concrete browser environment whose result wait times out. -/
def searchEnvFail : BrowserEnv :=
  { page := { url := "https://www.google.com/",
              elems := [⟨"textarea", "q", false, true, ""⟩] },
    googleHomeResult := .ok ⟨"https://www.google.com/", []⟩,
    resultsAppear := false }

/-- Helper: every entry of a fold of objSet assignments whose assigned value is
a function of the key stores exactly that function of its own key. -/
lemma mem_foldl_objSet (f : String → Bool) (kws : List String) :
    ∀ (m : List (String × Bool)), (∀ p ∈ m, p.2 = f p.1) →
      ∀ p ∈ kws.foldl (fun m kw => objSet m kw (f kw)) m, p.2 = f p.1 := by
  induction kws with
  | nil => intro m hm p hp; exact hm p hp
  | cons k rest ih =>
    intro m hm p hp
    refine ih (objSet m k (f k)) ?_ p hp
    intro q hq
    unfold objSet at hq
    by_cases hmem : m.any (fun p => p.1 == k)
    · rw [if_pos hmem] at hq
      obtain ⟨q0, hq0, hqe⟩ := List.mem_map.mp hq
      by_cases hk : (q0.1 == k) = true
      · rw [if_pos hk] at hqe
        have : q.1 = q0.1 ∧ q.2 = f k := by
          constructor <;> simp [← hqe]
        rw [this.2, this.1, eq_of_beq hk]
      · rw [if_neg hk] at hqe
        exact hqe ▸ hm q0 hq0
    · rw [if_neg hmem] at hq
      rcases List.mem_append.mp hq with hql | hqr
      · exact hm q hql
      · have : q = (k, f k) := List.mem_singleton.mp hqr
        rw [this]

/-- Helper: every entry of keywordMatchesOf stores the containment test of its
own key. -/
lemma mem_keywordMatchesOf (contentLower : String) (kws : List String) :
    ∀ p ∈ keywordMatchesOf contentLower kws,
      p.2 = jsIncludes contentLower (jsToLower p.1) := by
  intro p hp
  exact mem_foldl_objSet (fun kw => jsIncludes contentLower (jsToLower kw)) kws []
    (by intro q hq; cases hq) p hp

/-- C1: given the minimum-result-count precondition, validateSearchResults
returns a ValidationResult whose isValid field is true exactly when the number
of keywords recorded as matched reaches ceil(length of expectedKeywords / 2). -/
theorem C1_isValid_iff_majority (resultHeaderCount : Nat) (pageText : String)
    (expectedKeywords : List String) (minResultCount : Nat)
    (h : minResultCount ≤ resultHeaderCount) :
    succeeded (validateSearchResults resultHeaderCount pageText expectedKeywords
      minResultCount) = true ∧
    ∀ r, validateSearchResults resultHeaderCount pageText expectedKeywords
        minResultCount = .ok r →
      (r.isValid = true ↔
        (expectedKeywords.length + 1) / 2 ≤ countTrue r.keywordMatches) := by
  unfold validateSearchResults
  rw [if_neg (Nat.not_lt.mpr h)]
  refine ⟨rfl, ?_⟩
  intro r hr
  cases hr
  simp

/-- Witness for C1 at a concrete input. -/
theorem C1_isValid_iff_majority_witness :
    succeeded (validateSearchResults 5 "malta capital city"
      ["malta", "capital", "unesco"] 3) = true ∧
    (ValidationResult.isValid
        ⟨5, [("malta", true), ("capital", true), ("unesco", false)], true⟩ = true ↔
      2 ≤ countTrue [("malta", true), ("capital", true), ("unesco", false)]) :=
  ⟨(C1_isValid_iff_majority 5 "malta capital city" ["malta", "capital", "unesco"] 3
      (by decide)).1,
   (C1_isValid_iff_majority 5 "malta capital city" ["malta", "capital", "unesco"] 3
      (by decide)).2
     ⟨5, [("malta", true), ("capital", true), ("unesco", false)], true⟩ rfl⟩

/-- C2: when the counted totalResults is below minResultCount, the call fails
with a propagated error, and the outcome is independent of the page text and
the keyword list, so no keyword matching takes part and no ValidationResult is
returned. -/
theorem C2_count_below_min_errs (resultHeaderCount : Nat) (pageText : String)
    (expectedKeywords : List String) (minResultCount : Nat)
    (h : resultHeaderCount < minResultCount) :
    validateSearchResults resultHeaderCount pageText expectedKeywords
        minResultCount = .error ⟨"Error",
          "Result validation failed: expect received to be greater than or equal to expected"⟩ ∧
    ∀ pageText2 expectedKeywords2,
      validateSearchResults resultHeaderCount pageText2 expectedKeywords2
        minResultCount =
      validateSearchResults resultHeaderCount pageText expectedKeywords
        minResultCount := by
  constructor
  · unfold validateSearchResults; rw [if_pos h]
  · intro pt2 kw2
    unfold validateSearchResults
    rw [if_pos h, if_pos h]

/-- Witness for C2 at a concrete input. -/
theorem C2_count_below_min_errs_witness :
    validateSearchResults 1 "malta" ["malta"] 3 = .error ⟨"Error",
      "Result validation failed: expect received to be greater than or equal to expected"⟩ ∧
    validateSearchResults 1 "another page text" ["events", "center"] 3 =
      validateSearchResults 1 "malta" ["malta"] 3 :=
  ⟨(C2_count_below_min_errs 1 "malta" ["malta"] 3 (by decide)).1,
   (C2_count_below_min_errs 1 "malta" ["malta"] 3 (by decide)).2
     "another page text" ["events", "center"]⟩

/-- Helper: the key list of an objSet assignment: unchanged when the key is
already present, extended by the key otherwise. -/
lemma map_fst_objSet (m : List (String × Bool)) (k : String) (v : Bool) :
    (objSet m k v).map Prod.fst =
      if m.any (fun p => p.1 == k) then m.map Prod.fst else m.map Prod.fst ++ [k] := by
  unfold objSet
  by_cases hmem : m.any (fun p => p.1 == k)
  · rw [if_pos hmem, if_pos hmem, List.map_map]
    refine List.map_congr_left ?_
    intro p _
    simp only [Function.comp_apply]
    split <;> rfl
  · rw [if_neg hmem, if_neg hmem, List.map_append]
    rfl

/-- Helper: key membership after an objSet assignment. -/
lemma mem_map_fst_objSet (m : List (String × Bool)) (k k' : String) (v : Bool) :
    k' ∈ (objSet m k v).map Prod.fst ↔ k' ∈ m.map Prod.fst ∨ k' = k := by
  rw [map_fst_objSet]
  by_cases hmem : m.any (fun p => p.1 == k)
  · rw [if_pos hmem]
    constructor
    · exact fun h => .inl h
    · rintro (h | rfl)
      · exact h
      · obtain ⟨p, hp, hpk⟩ := List.any_eq_true.mp hmem
        exact (eq_of_beq hpk) ▸ List.mem_map_of_mem Prod.fst hp
  · rw [if_neg hmem]
    simp [List.mem_append]

/-- Helper: objSet assignments keep the key list duplicate-free. -/
lemma nodup_map_fst_objSet (m : List (String × Bool)) (k : String) (v : Bool)
    (h : (m.map Prod.fst).Nodup) : ((objSet m k v).map Prod.fst).Nodup := by
  rw [map_fst_objSet]
  by_cases hmem : m.any (fun p => p.1 == k)
  · rw [if_pos hmem]; exact h
  · rw [if_neg hmem]
    have hk : k ∉ m.map Prod.fst := by
      intro hkm
      obtain ⟨p, hp, hpe⟩ := List.mem_map.mp hkm
      apply hmem
      rw [List.any_eq_true]
      exact ⟨p, hp, beq_iff_eq.mpr hpe⟩
    rw [List.nodup_append]
    refine ⟨h, List.nodup_singleton k, ?_⟩
    intro a ha hak
    rw [List.mem_singleton.mp hak] at ha
    exact hk ha

/-- Helper: the key list of the keyword-match fold is duplicate-free. -/
lemma nodup_keys_foldl (f : String → Bool) (kws : List String) :
    ∀ m : List (String × Bool), (m.map Prod.fst).Nodup →
      ((kws.foldl (fun m kw => objSet m kw (f kw)) m).map Prod.fst).Nodup := by
  induction kws with
  | nil => intro m hm; exact hm
  | cons k rest ih =>
    intro m hm
    exact ih (objSet m k (f k)) (nodup_map_fst_objSet m k (f k) hm)

/-- Helper: key membership in the keyword-match fold. -/
lemma mem_keys_foldl (f : String → Bool) (kws : List String) :
    ∀ (m : List (String × Bool)) (k' : String),
      (k' ∈ (kws.foldl (fun m kw => objSet m kw (f kw)) m).map Prod.fst ↔
        k' ∈ m.map Prod.fst ∨ k' ∈ kws) := by
  induction kws with
  | nil => intro m k'; simp
  | cons k rest ih =>
    intro m k'
    rw [List.foldl_cons, ih (objSet m k (f k)) k', mem_map_fst_objSet]
    simp only [List.mem_cons]
    tauto

/-- C5: keyword matching is case-insensitive substring containment against the
full page text; concretely, keyword "MALTA" is recorded as matched on a page
whose text contains "malta". -/
theorem C5_case_insensitive_matching :
    (∀ resultHeaderCount pageText expectedKeywords minResultCount r kw b,
      validateSearchResults resultHeaderCount pageText expectedKeywords
        minResultCount = .ok r → (kw, b) ∈ r.keywordMatches →
      (b = true ↔ (jsToLower kw).data <:+: (jsToLower pageText).data)) ∧
    validateSearchResults 5 "the walled city of malta" ["MALTA"] 0 =
      .ok ⟨5, [("MALTA", true)], true⟩ := by
  constructor
  · intro rc pt kws mrc r kw b hok hmem
    unfold validateSearchResults at hok
    by_cases h : rc < mrc
    · rw [if_pos h] at hok; cases hok
    · rw [if_neg h] at hok
      cases hok
      have hv := mem_keywordMatchesOf (jsToLower pt) kws (kw, b) hmem
      simp only at hv
      rw [hv]
      simp [jsIncludes]
  · rfl

/-- Witness for C5 at a concrete input. -/
theorem C5_case_insensitive_matching_witness :
    true = true ↔ (jsToLower "MALTA").data <:+: (jsToLower "the walled city of malta").data :=
  C5_case_insensitive_matching.1 5 "the walled city of malta" ["MALTA"] 0
    ⟨5, [("MALTA", true)], true⟩ "MALTA" true C5_case_insensitive_matching.2 (by decide)

/-- C10: keywordMatches holds exactly one entry per distinct keyword
(duplicate-free keys, one key per distinct list member), while the threshold
uses the full list length; on the list ["a", "a", "b"] with page text "a" the
result is not valid even though two of the three list entries are keywords
found on the page. -/
theorem C10_duplicate_keywords_distinct_entries :
    (∀ resultHeaderCount pageText expectedKeywords minResultCount r,
      validateSearchResults resultHeaderCount pageText expectedKeywords
        minResultCount = .ok r →
      (r.keywordMatches.map Prod.fst).Nodup ∧
      ∀ k, k ∈ r.keywordMatches.map Prod.fst ↔ k ∈ expectedKeywords) ∧
    (validateSearchResults 3 "a" ["a", "a", "b"] 3 =
        .ok ⟨3, [("a", true), ("b", false)], false⟩ ∧
      (["a", "a", "b"] : List String).length ≤
        2 * ((["a", "a", "b"] : List String).countP
          fun k => jsIncludes (jsToLower "a") (jsToLower k))) := by
  constructor
  · intro rc pt kws mrc r hok
    unfold validateSearchResults at hok
    by_cases h : rc < mrc
    · rw [if_pos h] at hok; cases hok
    · rw [if_neg h] at hok
      cases hok
      constructor
      · exact nodup_keys_foldl _ kws [] (by simp)
      · intro k
        rw [keywordMatchesOf, mem_keys_foldl]
        simp
  · exact ⟨rfl, by decide⟩

/-- Witness for C10 at a concrete input. -/
theorem C10_duplicate_keywords_distinct_entries_witness :
    "a" ∈ ([("a", true), ("b", false)] : List (String × Bool)).map Prod.fst ↔
      "a" ∈ (["a", "a", "b"] : List String) :=
  (C10_duplicate_keywords_distinct_entries.1 3 "a" ["a", "a", "b"] 3
    ⟨3, [("a", true), ("b", false)], false⟩
    C10_duplicate_keywords_distinct_entries.2.1).2 "a"

/-- Helper: the value handed onward by the extraction loop, after the catch,
is the accumulator extended by one entry per index before the first failing
read. -/
lemma extractLoop_catch (titles descs : List TextRead) :
    ∀ (idxs : List Nat) (acc : List ResultEntry),
      (match extractLoop titles descs idxs acc with
       | .ok l => l
       | .error (_, a) => a) =
      acc ++ (idxs.take (idxs.findIdx (fun i => ! readsOk titles descs i))).map
        (entryAt titles descs) := by
  intro idxs
  induction idxs with
  | nil => intro acc; simp [extractLoop]
  | cons i rest ih =>
    intro acc
    cases ht : titles.getD i (.error "missing element") with
    | error e =>
      have hro : readsOk titles descs i = false := by
        unfold readsOk
        rw [ht]
        simp [succeeded]
      simp only [extractLoop, ht]
      rw [List.findIdx_cons]
      simp [hro]
    | ok t =>
      by_cases hlen : i < descs.length
      · cases hd : descs.getD i (.error "missing element") with
        | error e =>
          have hro : readsOk titles descs i = false := by
            unfold readsOk
            rw [ht, hd]
            simp [succeeded, Nat.not_le.mpr hlen]
          simp only [extractLoop, ht, if_pos hlen, hd]
          rw [List.findIdx_cons]
          simp [hro]
        | ok d =>
          have hro : readsOk titles descs i = true := by
            unfold readsOk
            rw [ht, hd]
            simp [succeeded]
          have hent : entryAt titles descs i =
              ⟨i + 1, (jsOrEmpty t).trim, (jsOrEmpty d).trim⟩ := by
            unfold entryAt
            rw [ht, if_pos hlen, hd]
            simp [okValue]
          simp only [extractLoop, ht, if_pos hlen, hd]
          rw [ih, List.findIdx_cons]
          simp [hro, hent, List.take_succ_cons, List.append_assoc]
      · have hro : readsOk titles descs i = true := by
          unfold readsOk
          rw [ht]
          simp [succeeded, Nat.not_lt.mp hlen]
        have hent : entryAt titles descs i =
            ⟨i + 1, (jsOrEmpty t).trim, (jsOrEmpty none).trim⟩ := by
          unfold entryAt
          rw [ht, if_neg hlen]
          simp [okValue, jsOrEmpty]
        simp only [extractLoop, ht, if_neg hlen]
        rw [ih, List.findIdx_cons]
        simp [hro, hent, List.take_succ_cons, List.append_assoc]

/-- Helper: extractResultData equals its accumulated-prefix
characterization. -/
lemma extractResultData_eq (env : ExtractEnv) :
    extractResultData env = entriesUpToFailure env := by
  obtain ⟨tAll, dAll⟩ := env
  unfold extractResultData extractInner entriesUpToFailure
  cases tAll with
  | error e => rfl
  | ok titles =>
    cases dAll with
    | error e => rfl
    | ok descs =>
      dsimp only
      rw [extractLoop_catch titles descs (List.range (min titles.length 10)) [],
        List.nil_append, List.take_range]
      unfold goodLen
      congr 2
      refine Nat.min_eq_left ?_
      calc (List.range (min titles.length 10)).findIdx
            (fun i => ! readsOk titles descs i)
          ≤ (List.range (min titles.length 10)).length :=
            List.findIdx_le_length _
        _ = min titles.length 10 := List.length_range _

/-- C4: extractResultData never propagates an exception: for every environment,
including those where a .all() call or a textContent() read throws, it returns
exactly the entries accumulated before the first failing read (possibly the
empty list), never an error. -/
theorem C4_extract_never_throws (env : ExtractEnv) :
    extractResultData env = entriesUpToFailure env :=
  extractResultData_eq env

/-- Helper: getD of a list of successful reads at an in-range index. -/
lemma getD_map_ok (xs : List (Option String)) (i : Nat) (h : i < xs.length) :
    (xs.map Except.ok).getD i (.error "missing element") =
      .ok (xs.getD i none) := by
  rw [List.getD_eq_getElem?_getD, List.getD_eq_getElem?_getD,
    List.getElem?_map, List.getElem?_eq_getElem h]
  rfl

/-- C9: extractResultData returns at most 10 entries; with successful reads the
entry at index i has position i + 1, the trimmed text of title element i, and
the trimmed text of description element i when one exists at that index, else
the empty string. -/
theorem C9_extract_entries_shape :
    (∀ env : ExtractEnv, (extractResultData env).length ≤ 10) ∧
    ∀ (ts ds : List (Option String)),
      extractResultData ⟨.ok (ts.map Except.ok), .ok (ds.map Except.ok)⟩ =
        (List.range (min ts.length 10)).map (fun i =>
          ⟨i + 1, (jsOrEmpty (ts.getD i none)).trim,
           (if i < ds.length then jsOrEmpty (ds.getD i none) else "").trim⟩) := by
  constructor
  · intro env
    rw [extractResultData_eq]
    obtain ⟨tAll, dAll⟩ := env
    unfold entriesUpToFailure
    cases tAll with
    | error e => simp
    | ok titles =>
      cases dAll with
      | error e => simp
      | ok descs =>
        dsimp only
        rw [List.length_map, List.length_range]
        unfold goodLen
        calc (List.range (min titles.length 10)).findIdx
              (fun i => ! readsOk titles descs i)
            ≤ (List.range (min titles.length 10)).length :=
              List.findIdx_le_length _
          _ = min titles.length 10 := List.length_range _
          _ ≤ 10 := Nat.min_le_right _ _
  · intro ts ds
    rw [extractResultData_eq]
    unfold entriesUpToFailure
    dsimp only
    have hro : ∀ i, i < min ts.length 10 →
        readsOk (ts.map Except.ok) (ds.map Except.ok) i = true := by
      intro i hi
      have hits : i < ts.length := lt_of_lt_of_le hi (Nat.min_le_left _ _)
      unfold readsOk
      rw [getD_map_ok ts i hits]
      by_cases hd : i < ds.length
      · rw [getD_map_ok ds i hd]
        simp [succeeded]
      · rw [List.length_map]
        simp [succeeded, Nat.not_lt.mp hd]
    have hgl : goodLen (ts.map Except.ok) (ds.map Except.ok) =
        min ts.length 10 := by
      unfold goodLen
      rw [List.length_map]
      have hfi : ((List.range (min ts.length 10)).findIdx
          (fun i => ! readsOk (ts.map Except.ok) (ds.map Except.ok) i)) =
          (List.range (min ts.length 10)).length :=
        List.findIdx_eq_length.mpr (by
          intro a ha
          simp [hro a (List.mem_range.mp ha)])
      rw [hfi, List.length_range]
    rw [hgl]
    refine List.map_congr_left ?_
    intro i hi
    have hits : i < ts.length :=
      lt_of_lt_of_le (List.mem_range.mp hi) (Nat.min_le_left _ _)
    unfold entryAt
    rw [getD_map_ok ts i hits, List.length_map]
    by_cases hd : i < ds.length
    · rw [if_pos hd, if_pos hd, getD_map_ok ds i hd]
      simp [okValue]
    · rw [if_neg hd, if_neg hd]
      simp [okValue]

/-- Helper: a dismissed candidate has a visible probe and a succeeding
click. -/
lemma consentSuccess_spec (env : ConsentEnv) (i : Nat)
    (h : consentSuccess env i = true) :
    env.probe i = .visibleYes ∧ env.clickOk i = true := by
  unfold consentSuccess at h
  rcases Bool.and_eq_true_iff.mp h with ⟨h1, h2⟩
  exact ⟨of_decide_eq_true h1, h2⟩

/-- Helper: one continuing iteration of the consent loop contributes its
events and hands over to the rest. -/
lemma consentLoop_cons_continue (env : ConsentEnv) (i : Nat) (rest : List Nat)
    (h : consentSuccess env i = false) :
    consentLoop env (i :: rest) =
      consentEventsAt env i ++ consentLoop env rest := by
  cases hp : env.probe i with
  | probeErr =>
    have ht : tryConsentCandidate env i =
        .error ("isVisible failed", [.probed i]) := by
      unfold tryConsentCandidate
      rw [hp]
    simp [consentLoop, ht, consentEventsAt, hp]
  | visibleNo =>
    have ht : tryConsentCandidate env i = .ok ([.probed i], false) := by
      unfold tryConsentCandidate
      rw [hp]
    simp [consentLoop, ht, consentEventsAt, hp]
  | visibleYes =>
    have hc : env.clickOk i = false := by
      unfold consentSuccess at h
      rw [hp] at h
      simpa using h
    have ht : tryConsentCandidate env i =
        .error ("click failed", [.probed i, .clicked i]) := by
      unfold tryConsentCandidate
      rw [hp, hc]
      simp
    simp [consentLoop, ht, consentEventsAt, hp]

/-- Helper: the iteration of a dismissed candidate clicks it and breaks. -/
lemma consentLoop_cons_break (env : ConsentEnv) (i : Nat) (rest : List Nat)
    (h : consentSuccess env i = true) :
    consentLoop env (i :: rest) = [.probed i, .clicked i] := by
  obtain ⟨hp, hc⟩ := consentSuccess_spec env i h
  have ht : tryConsentCandidate env i =
      .ok ([.probed i, .clicked i], true) := by
    unfold tryConsentCandidate
    rw [hp, hc]
    simp
  simp [consentLoop, ht]

/-- Helper: the consent loop realizes the declared-order trace. -/
lemma consentLoop_spec (env : ConsentEnv) : ∀ idxs : List Nat,
    consentLoop env idxs = consentSpecTrace env idxs := by
  intro idxs
  induction idxs with
  | nil => rfl
  | cons i rest ih =>
    unfold consentSpecTrace
    cases h : consentSuccess env i with
    | true =>
      obtain ⟨hp, _⟩ := consentSuccess_spec env i h
      rw [consentLoop_cons_break env i rest h]
      simp [List.takeWhile_cons, List.find?_cons, h, consentEventsAt, hp]
    | false =>
      rw [consentLoop_cons_continue env i rest h, ih]
      unfold consentSpecTrace
      simp [List.takeWhile_cons, List.find?_cons, h, List.append_assoc]

/-- Helper: the events of candidate i mention only candidate i. -/
lemma probed_mem_consentEventsAt (env : ConsentEnv) (k j : Nat)
    (h : ConsentEvent.probed j ∈ consentEventsAt env k) : j = k := by
  unfold consentEventsAt at h
  cases hp : env.probe k <;> rw [hp] at h <;> simpa using h

/-- Helper: after a dismissed candidate i, the loop never reaches the later
candidates: every probed index comes from the part before i or is i itself. -/
lemma consentLoop_probed_split (env : ConsentEnv) (i j : Nat)
    (h : consentSuccess env i = true) :
    ∀ (l₁ l₂ : List Nat),
      ConsentEvent.probed j ∈ consentLoop env (l₁ ++ i :: l₂) →
      j ∈ l₁ ∨ j = i := by
  intro l₁
  induction l₁ with
  | nil =>
    intro l₂ hmem
    rw [List.nil_append, consentLoop_cons_break env i l₂ h] at hmem
    right
    simpa using hmem
  | cons k l₁ ih =>
    intro l₂ hmem
    rw [List.cons_append] at hmem
    cases hk : consentSuccess env k with
    | true =>
      rw [consentLoop_cons_break env k _ hk] at hmem
      left
      have hj : j = k := by simpa using hmem
      exact hj ▸ List.mem_cons_self k l₁
    | false =>
      rw [consentLoop_cons_continue env k _ hk] at hmem
      rcases List.mem_append.mp hmem with h1 | h1
      · left
        exact (probed_mem_consentEventsAt env k j h1) ▸ List.mem_cons_self k l₁
      · rcases ih l₂ h1 with h2 | h2
        · exact .inl (List.mem_cons_of_mem k h2)
        · exact .inr h2

/-- C6: consent handling probes the candidates in declared order, clicks the
first candidate whose probe reports it visible (a per-candidate error merely
moves on to the next candidate), stops after a successful click, and by its
catch-inside-the-loop structure always returns a trace; once candidate i is
dismissed, no later candidate is ever probed. -/
theorem C6_consent_first_match_wins (env : ConsentEnv) :
    handleConsentDialogs env =
      consentSpecTrace env (List.range consentSelectors.length) ∧
    ∀ i j, i < consentSelectors.length → consentSuccess env i = true →
      i < j → ConsentEvent.probed j ∉ handleConsentDialogs env := by
  constructor
  · exact consentLoop_spec env _
  · intro i j hi hsucc hij hmem
    unfold handleConsentDialogs at hmem
    have h4 : i < 4 := by simpa [consentSelectors] using hi
    have hsplit : ∃ l₁ l₂, l₁ = List.range i ∧
        List.range consentSelectors.length = l₁ ++ i :: l₂ := by
      interval_cases i
      · exact ⟨[], [1, 2, 3], rfl, rfl⟩
      · exact ⟨[0], [2, 3], rfl, rfl⟩
      · exact ⟨[0, 1], [3], rfl, rfl⟩
      · exact ⟨[0, 1, 2], [], rfl, rfl⟩
    obtain ⟨l₁, l₂, hl₁, hsp⟩ := hsplit
    rw [hsp] at hmem
    rcases consentLoop_probed_split env i j hsucc l₁ l₂ hmem with hj | hj
    · rw [hl₁] at hj
      exact Nat.lt_irrefl i (Nat.lt_trans hij (List.mem_range.mp hj))
    · rw [hj] at hij
      exact Nat.lt_irrefl i hij

/-- Witness for C6 at a concrete environment. -/
theorem C6_consent_first_match_wins_witness :
    handleConsentDialogs consentEnvW =
      consentSpecTrace consentEnvW (List.range consentSelectors.length) ∧
    ConsentEvent.probed 2 ∉ handleConsentDialogs consentEnvW :=
  ⟨(C6_consent_first_match_wins consentEnvW).1,
   (C6_consent_first_match_wins consentEnvW).2 1 2 (by decide) (by decide)
     (by decide)⟩

/-- Helper: reading back the value written at an in-range position. -/
lemma getD_setValueAt (elems : List Element) (idx : Nat) (v : String)
    (h : idx < elems.length) :
    (setValueAt elems idx v).getD idx default =
      { elems.getD idx default with value := v } := by
  unfold setValueAt
  rw [List.getD_eq_getElem?_getD, List.getElem?_set_self h]
  rfl

/-- Helper: setValueAt preserves the element count. -/
lemma length_setValueAt (elems : List Element) (idx : Nat) (v : String) :
    (setValueAt elems idx v).length = elems.length := by
  unfold setValueAt
  simp

/-- C3 counterexample: on a page whose first visible match of the searchInput
alternatives is the input element at position 0 (under both the declared
preference order and document order), executeSearch succeeds but fills the
aria-hidden textarea at position 1 instead. -/
theorem C3_counterexample :
    filledIndices (executeSearch envC3 "ftira") = [1] ∧
    specFirstVisibleSearchInput envC3.page.elems = some 0 ∧
    envC3.page.elems.findIdx? isVisibleSearchBox = some 0 ∧
    succeeded (executeSearch envC3 "ftira") = true :=
  ⟨rfl, rfl, rfl, rfl⟩

/-- C3 amended: executeSearch waits for a visible element matching the
searchBox selector list, but the element it fills is the first element
matching the bare selector textarea[name="q"] in document order, independent
of which alternative satisfied the wait. -/
theorem C3_fill_first_textarea (env : BrowserEnv) (searchTerm : String)
    (tr : List Action) (st : PageState) (idx : Nat)
    (hok : executeSearch env searchTerm = .ok (tr, st))
    (hurl : jsIncludes env.page.url "tbm=isch" = false)
    (hidx : env.page.elems.findIdx? matchesTextareaQ = some idx) :
    Action.fill idx searchTerm ∈ tr := by
  have hrec : recoverFromImageMode env = .ok (env.page, []) := by
    unfold recoverFromImageMode
    simp [hurl]
  unfold executeSearch executeSearchInner at hok
  by_cases hwait : env.page.elems.any isVisibleSearchBox = true
  · rw [if_pos hwait, hrec] at hok
    dsimp only at hok
    rw [hidx] at hok
    dsimp only at hok
    by_cases hvis : (env.page.elems.getD idx default).visible = true
    · by_cases hres : env.resultsAppear = true
      · rw [if_pos hvis, if_pos hres] at hok
        simp only [Except.ok.injEq, Prod.mk.injEq] at hok
        rw [← hok.1]
        simp
      · rw [if_pos hvis, if_neg hres] at hok
        simp at hok
    · rw [if_neg hvis] at hok
      simp at hok
  · rw [if_neg hwait] at hok
    simp at hok

/-- Witness for the amended C3 at a concrete input. -/
theorem C3_fill_first_textarea_witness :
    Action.fill 1 "ftira" ∈
      (Action.waitForSelector locators_searchBox 10000 ::
        ([] : List Action) ++
        [Action.click 1, Action.clear 1, Action.fill 1 "ftira",
         Action.press 1 "Enter",
         Action.waitForSelector locators_resultContainers
           config_waitTimeout]) :=
  C3_fill_first_textarea envC3 "ftira" _
    ⟨"https://www.google.com/",
     setValueAt (setValueAt envC3.page.elems 1 "") 1 "ftira"⟩ 1 rfl rfl rfl

/-- C8: every successful executeSearch run clears the input before filling it
with the term, the filled element ends with exactly the term as its value (no
prior content remains), submission is an Enter key press with no submit-button
click, and the run waited for the result containers with the configured
timeout; success forces the result wait to have succeeded, so a timed-out
result wait can only yield an error, never a silent success. -/
theorem C8_clear_fill_enter_wait (env : BrowserEnv) (searchTerm : String)
    (tr : List Action) (st : PageState)
    (hok : executeSearch env searchTerm = .ok (tr, st)) :
    (∃ idx tr1,
      tr = Action.waitForSelector locators_searchBox 10000 :: tr1 ++
        [Action.click idx, Action.clear idx, Action.fill idx searchTerm,
         Action.press idx "Enter",
         Action.waitForSelector locators_resultContainers
           config_waitTimeout] ∧
      (st.elems.getD idx default).value = searchTerm) ∧
    env.resultsAppear = true := by
  unfold executeSearch executeSearchInner at hok
  by_cases hwait : env.page.elems.any isVisibleSearchBox = true
  · rw [if_pos hwait] at hok
    cases hrec : recoverFromImageMode env with
    | error msg =>
      rw [hrec] at hok
      simp at hok
    | ok pr =>
      obtain ⟨page1, tr1⟩ := pr
      rw [hrec] at hok
      dsimp only at hok
      cases hidx : page1.elems.findIdx? matchesTextareaQ with
      | none =>
        rw [hidx] at hok
        simp at hok
      | some idx =>
        rw [hidx] at hok
        dsimp only at hok
        by_cases hvis : (page1.elems.getD idx default).visible = true
        · by_cases hres : env.resultsAppear = true
          · rw [if_pos hvis, if_pos hres] at hok
            simp only [Except.ok.injEq, Prod.mk.injEq] at hok
            obtain ⟨htr, hst⟩ := hok
            have hlen : idx < page1.elems.length := by
              obtain ⟨h, -, -⟩ := List.findIdx?_eq_some_iff_getElem.mp hidx
              exact h
            have hlen2 : idx < (setValueAt page1.elems idx "").length := by
              rw [length_setValueAt]
              exact hlen
            refine ⟨⟨idx, tr1, htr.symm, ?_⟩, hres⟩
            rw [← hst]
            dsimp only
            rw [getD_setValueAt _ _ _ hlen2]
          · rw [if_pos hvis, if_neg hres] at hok
            simp at hok
        · rw [if_neg hvis] at hok
          simp at hok
  · rw [if_neg hwait] at hok
    simp at hok

/-- Witness for C8 at a concrete input. -/
theorem C8_clear_fill_enter_wait_witness : browserEnvW.resultsAppear = true :=
  (C8_clear_fill_enter_wait browserEnvW "ftira"
    (Action.waitForSelector locators_searchBox 10000 :: ([] : List Action) ++
      [Action.click 0, Action.clear 0, Action.fill 0 "ftira",
       Action.press 0 "Enter",
       Action.waitForSelector locators_resultContainers config_waitTimeout])
    ⟨"https://www.google.com/",
     setValueAt (setValueAt browserEnvW.page.elems 0 "") 0 "ftira"⟩
    rfl).2

/-- C7 counterexample: a navigation failure and a search failure carry errors
of one and the same type (the plain Error constructor), so the failing phase
cannot be distinguished by error type. -/
theorem C7_counterexample :
    errNameOf (navigateToSearchEngine navEnvFail "https://www.google.com") =
      some "Error" ∧
    errNameOf (executeSearch searchEnvFail "ftira") = some "Error" ∧
    errNameOf (navigateToSearchEngine navEnvFail "https://www.google.com") =
      errNameOf (executeSearch searchEnvFail "ftira") :=
  ⟨rfl, rfl, rfl⟩

/-- C7 amended: every failure inside navigateToSearchEngine is rethrown as a
plain Error whose message is "Navigation failed: " followed by the original
cause message, and every failure inside executeSearch (including the
result-container timeout) as a plain Error whose message is "Search execution
failed: " followed by the cause; the failing phase is distinguished by the
message prefix, not by the error type. -/
theorem C7_error_wrapping :
    (∀ (env : NavEnv) (url : String) (e : JsError),
      navigateToSearchEngine env url = .error e →
      e.name = "Error" ∧ ∃ cause, env.gotoResult url = .error cause ∧
        e.message = "Navigation failed: " ++ cause) ∧
    (∀ (env : BrowserEnv) (searchTerm : String) (e : JsError),
      executeSearch env searchTerm = .error e →
      e.name = "Error" ∧ ∃ cause,
        executeSearchInner env searchTerm = .error cause ∧
        e.message = "Search execution failed: " ++ cause) := by
  constructor
  · intro env url e herr
    unfold navigateToSearchEngine at herr
    cases hg : env.gotoResult url with
    | error cause =>
      rw [hg] at herr
      dsimp only at herr
      simp only [Except.error.injEq] at herr
      rw [← herr]
      exact ⟨rfl, cause, rfl, rfl⟩
    | ok st =>
      rw [hg] at herr
      simp at herr
  · intro env searchTerm e herr
    unfold executeSearch at herr
    cases hi : executeSearchInner env searchTerm with
    | error cause =>
      rw [hi] at herr
      dsimp only at herr
      simp only [Except.error.injEq] at herr
      rw [← herr]
      exact ⟨rfl, cause, rfl, rfl⟩
    | ok r =>
      rw [hi] at herr
      simp at herr

/-- Witness for the amended C7 at a concrete input. -/
theorem C7_error_wrapping_witness :
    JsError.name ⟨"Error", "Navigation failed: net::ERR_CONNECTION_REFUSED"⟩ =
      "Error" :=
  (C7_error_wrapping.1 navEnvFail "https://www.google.com"
    ⟨"Error", "Navigation failed: net::ERR_CONNECTION_REFUSED"⟩ rfl).1

end SearchValidation
